import Mathlib

set_option linter.unusedVariables false

/-!
# Verification of the GROMACS modular-simulator `MicroState` slice

This development embeds, in Lean 4, the state container declared in
`src/gromacs/modularsimulator/microstate.h` together with the GPU test
shim `applySettleCuda`. Only the header of `MicroState` is present in the
repository slice; the method bodies are modelled from the specification
(section 4 of the design document), faithful to its description of the
rotation, snapshot, legacy-bridge, and velocity-reset operations.

Coordinates are modelled as integer 3-vectors: none of the verified
operations performs arithmetic on coordinate values, only copying, so the
scalar type is irrelevant to every property proved here.
-/

namespace Gromacs

/-- A 3-vector of coordinates (`rvec` in the source). -/
abbrev RVec : Type := Int × Int × Int

/-- A 3×3 box matrix (`matrix` in the source): three row vectors. -/
abbrev Matrix3 : Type := RVec × RVec × RVec

/-- The zero vector, used as the out-of-range default for `List.getD`. -/
def zeroRVec : RVec := (0, 0, 0)

/-- Modelled from the spec: the legacy monolithic state record `t_state`
as far as the `MicroState` bridge uses it — "positions, velocities,
forces, box, flags, partition counter" (spec §4.3). -/
structure TState where
  x : List RVec
  v : List RVec
  f : List RVec
  box : Matrix3
  flags : Nat
  ddpCount : Int
  deriving DecidableEq, Repr

/-- The communication record `t_commrec`, reduced to the one bit the
claims need: whether this rank is the master coordination role. -/
structure CommRec where
  isMasterRank : Bool
  deriving DecidableEq, Repr

/-- The `MicroState` aggregate, with the fields of the class declared in
`microstate.h` (names kept, trailing underscore included). File handles
and GPU/inputrec/mdatoms configuration do not influence any verified
operation and are omitted; the VV-scheme condition derived from the
input record at construction is kept as the `vvResetVelocities_` flag. -/
structure MicroState where
  totalNAtoms_ : Nat
  nstxout_ : Int
  nstvout_ : Int
  nstfout_ : Int
  nstxout_compressed_ : Int
  localNAtoms_ : Nat
  x_ : List RVec
  previousX_ : List RVec
  v_ : List RVec
  f_ : List RVec
  box_ : Matrix3
  previousBox_ : Matrix3
  flags_ : Nat
  ddpCount_ : Int
  localStateBackup_ : Option TState
  writeOutStep_ : Int
  vvResetVelocities_ : Bool
  velocityBackup_ : List RVec
  globalState_ : Option TState
  deriving DecidableEq, Repr

/-- Modelled from the spec: the constructor (spec §6). It records the
atom count, the four writeout cadences, the (nullable) global-state
pointer, and whether the integration scheme is velocity Verlet (which
arms the velocity-reset flag); the local buffers start from the supplied
initial local view, no writeout step is pending, and no backup is held. -/
def mkMicroState (natoms : Nat) (cr : CommRec) (globalState : Option TState)
    (nstxout nstvout nstfout nstxout_compressed : Int) (isVV : Bool)
    (localN : Nat) (x0 v0 f0 : List RVec) (box0 : Matrix3) : MicroState :=
  { totalNAtoms_ := natoms
    nstxout_ := nstxout
    nstvout_ := nstvout
    nstfout_ := nstfout
    nstxout_compressed_ := nstxout_compressed
    localNAtoms_ := localN
    x_ := x0
    previousX_ := x0
    v_ := v0
    f_ := f0
    box_ := box0
    previousBox_ := box0
    flags_ := 0
    ddpCount_ := 0
    localStateBackup_ := none
    writeOutStep_ := -1
    vvResetVelocities_ := isVV
    velocityBackup_ := []
    globalState_ := if cr.isMasterRank then globalState else none }

/-- The element-wise range copy underlying `copyPosition(int start, int end)`:
`dst[i] = src[i]` for every index `i` with `start ≤ i < stop`, all other
entries of `dst` unchanged. -/
def copyRange (src dst : List RVec) (start stop : Nat) : List RVec :=
  (List.range dst.length).map fun i =>
    if start ≤ i ∧ i < stop then src.getD i zeroRVec else dst.getD i zeroRVec

/-- Modelled from the spec: `copyPosition(int start, int end)`, the
OMP helper moving `x_` to `previousX_` on the index range `[start, stop)`
(spec §4.2 item 3, §5). -/
def copyPositionRange (start stop : Nat) (s : MicroState) : MicroState :=
  { s with previousX_ := copyRange s.x_ s.previousX_ start stop }

/-- Modelled from the spec: `copyPosition()`, the full rotation — copy
`x_` over the whole local atom range into `previousX_` and `box_` into
`previousBox_` ("Rotate current position/box into previous-position /
previous-box", spec §4.2 item 3). -/
def copyPosition (s : MicroState) : MicroState :=
  { s with
    previousX_ := copyRange s.x_ s.previousX_ 0 s.localNAtoms_
    previousBox_ := s.box_ }

/-- Modelled from the spec: `localState()` — a deep copy of the current
buffers in legacy format (spec §4.3). -/
def localState (s : MicroState) : TState :=
  { x := s.x_
    v := s.v_
    f := s.f_
    box := s.box_
    flags := s.flags_
    ddpCount := s.ddpCount_ }

/-- Modelled from the spec: `setLocalState(state)` — consume a legacy
record and overwrite the internal buffers from it (spec §4.3). -/
def setLocalState (st : TState) (s : MicroState) : MicroState :=
  { s with
    x_ := st.x
    v_ := st.v
    f_ := st.f
    box_ := st.box
    flags_ := st.flags
    ddpCount_ := st.ddpCount }

/-- Modelled from the spec: `globalState()` — a non-owning pointer to the
master-rank-only full-system state, null elsewhere (spec §4.3). -/
def globalState (s : MicroState) : Option TState :=
  s.globalState_

/-- Modelled from the spec: `saveState()` — take a deep-copy backup
snapshot of the state in legacy format for later writeout (spec §4.2
item 2, §3 "Backup snapshot"). -/
def saveState (s : MicroState) : MicroState :=
  { s with localStateBackup_ := some (localState s) }

/-- Modelled from the spec: `resetVelocities()` — restore the velocity
buffer from the backup captured at Setup (spec §4.2 item 1). -/
def resetVelocities (s : MicroState) : MicroState :=
  { s with v_ := s.velocityBackup_ }

/-- Modelled from the spec: `elementSetup()` — if the integration scheme
requires discarding the half-step velocity probe, capture a velocity
backup (spec §4.2 "Setup"). -/
def elementSetup (s : MicroState) : MicroState :=
  if s.vvResetVelocities_ then { s with velocityBackup_ := s.v_ } else s

/-- Modelled from the spec: phase 1 of the per-step callback — if a
velocity reset was armed by Setup, restore velocities from the backup
and disarm (spec §4.2 item 1). -/
def stepReset (s : MicroState) : MicroState :=
  if s.vvResetVelocities_ then
    { resetVelocities s with vvResetVelocities_ := false }
  else s

/-- Modelled from the spec: phase 2 of the per-step callback — if this
step's index matches the pending writeout step, take a backup snapshot
(spec §4.2 item 2). -/
def stepBackup (step : Int) (s : MicroState) : MicroState :=
  if step = s.writeOutStep_ then saveState s else s

/-- Modelled from the spec: the per-step callback registered by
`scheduleTask(step, time, registerRunFunction)`. In order (spec §4.2):
1. if a velocity reset was armed by Setup, restore velocities and disarm;
2. if this step matches the pending writeout step, take a backup snapshot
   before any further in-place rotation;
3. rotate current position/box into previous-position/previous-box. -/
def runStep (step : Int) (s : MicroState) : MicroState :=
  copyPosition (stepBackup step (stepReset s))

/-- Modelled from the spec: the trajectory-signaller callback — record
the next step at which a trajectory-writing event occurs as the pending
writeout step (spec §4.4 "Signaller client"). The cadence rule follows
the spec scenario (§8): with position cadence `nstxout_`, writeouts fire
at the positive multiples of the cadence. -/
def signalStep (step : Int) (s : MicroState) : MicroState :=
  if 0 < s.nstxout_ ∧ 0 < step ∧ step % s.nstxout_ = 0 then
    { s with writeOutStep_ := step }
  else s

/-- Modelled from the spec: the trajectory-writer callback `write(outf,
step, time)` — serialize the backup snapshot (never the live buffers) to
file and release it; absence of a backup is a fatal contract violation,
modelled as `none` (spec §4.4 "Writer client", §7(a)). On success the
written legacy frame and the post-write state are returned. -/
def write (step : Int) (s : MicroState) : Option (TState × MicroState) :=
  match s.localStateBackup_ with
  | none => none
  | some backup => some (backup, { s with localStateBackup_ := none })

/-- One full scheduling round for one step: the signaller updates the
pending writeout step, then the per-step callback runs. -/
def doStep (step : Int) (s : MicroState) : MicroState :=
  runStep step (signalStep step s)

/-- Run `doStep` for each step of a list, in order. -/
def doSteps (steps : List Int) (s : MicroState) : MicroState :=
  steps.foldl (fun t st => doStep st t) s

/-- A concrete two-atom state used as witness input for the rotation
lag claim. -/
def msLag : MicroState :=
  mkMicroState 2 ⟨true⟩ none 10 0 0 0 false
    2 [(1, 2, 3), (4, 5, 6)] [(7, 8, 9), (1, 1, 1)] [(0, 1, 0), (2, 2, 2)]
    ((3, 0, 0), (0, 3, 0), (0, 0, 3))

/-- A concrete two-atom state with a pending writeout step, used as
witness input for the snapshot claims. -/
def msA : MicroState :=
  { msLag with writeOutStep_ := 3 }

/-- A concrete one-atom state with the velocity-reset flag armed
(velocity-Verlet scheme), used as witness input for the reset claim. -/
def msV : MicroState :=
  mkMicroState 1 ⟨false⟩ none 0 0 0 0 true
    1 [(1, 2, 3)] [(4, 4, 4)] [(0, 0, 1)]
    ((2, 0, 0), (0, 2, 0), (0, 0, 2))

/-- A consumer write through the mutable view returned by the public
accessor `writePreviousPosition()` declared in `microstate.h` ("Get
write access to previous position vector"): the embedding of storing new
contents through that view. -/
def writePreviousPositionView (newPrev : List RVec) (s : MicroState) : MicroState :=
  { s with previousX_ := newPrev }

/-- The concrete scenario state of spec §8: atom count 4, position
writeout cadence 10. -/
def msC7 : MicroState :=
  mkMicroState 4 ⟨true⟩ none 10 0 0 0 false
    4 [(1, 0, 0), (0, 2, 0), (0, 0, 3), (4, 4, 4)]
    [(1, 1, 0), (0, 1, 1), (1, 0, 1), (2, 2, 2)]
    [(0, 0, 0), (1, 2, 3), (3, 2, 1), (5, 5, 5)]
    ((7, 0, 0), (0, 7, 0), (0, 0, 7))

/-- The scenario state after the scheduled callbacks of steps
`0, 1, …, n-1` have run. -/
def c7after (n : Nat) : MicroState :=
  doSteps ((List.range n).map Int.ofNat) msC7

/-- Chunk bounds of a contiguous partition: starting at `start`, each
entry of `sizes` contributes one `[start, start+size)` chunk. -/
def chunkBounds (start : Nat) : List Nat → List (Nat × Nat)
  | [] => []
  | sz :: rest => (start, start + sz) :: chunkBounds (start + sz) rest

/-- Chunk-by-chunk rotation at the buffer level: apply the range copy
for each chunk in turn. -/
def copyChunksList (src dst : List RVec) : List (Nat × Nat) → List RVec
  | [] => dst
  | (a, b) :: rest => copyChunksList src (copyRange src dst a b) rest

/-- Chunk-by-chunk rotation of the state: one `copyPosition(start, end)`
call per chunk (the OMP work distribution of spec §5). -/
def copyPositionChunks (bounds : List (Nat × Nat)) (s : MicroState) : MicroState :=
  bounds.foldl (fun t p => copyPositionRange p.1 p.2 t) s

/-- A concrete six-atom state used as witness input for the chunked
rotation claim. -/
def msChunk : MicroState :=
  mkMicroState 6 ⟨true⟩ none 0 0 0 0 false
    6 [(1, 1, 1), (2, 2, 2), (3, 3, 3), (4, 4, 4), (5, 5, 5), (6, 6, 6)]
    [] [] ((1, 0, 0), (0, 1, 0), (0, 0, 1))

/-- The output buffers of the SETTLE GPU test shim: the constrained
positions `h_xp`, the velocities `h_v`, and the scaled virial tensor. -/
structure SettleBuffers where
  h_xp : List RVec
  h_v : List RVec
  virialScaled : Matrix3
  deriving DecidableEq, Repr

/-- The googletest context as far as the shim touches it: a count of
recorded non-fatal assertion failures (`EXPECT_TRUE(false)` records one
and lets execution continue). -/
structure TestContext where
  failures : Nat
  deriving DecidableEq, Repr

/-- The non-CUDA build of `applySettleCuda` (the `GMX_GPU != GMX_GPU_CUDA`
stub in the source): it records one non-fatal test-assertion failure and
returns; every argument is unused (`gmx_unused`), so the output buffers
are returned exactly as given. The ignored configuration arguments
(`pbc`, `mtop`, `idef`, `mdatoms`) are kept as placeholders. -/
def applySettleCuda (numAtoms : Nat) (h_x : List RVec)
    (updateVelocities : Bool) (invdt : Int) (computeVirial : Bool)
    (pbc mtop idef mdatoms : Unit) (bufs : SettleBuffers)
    (ctx : TestContext) : SettleBuffers × TestContext :=
  (bufs, { ctx with failures := ctx.failures + 1 })

/-- A concrete legacy record used as witness input for the global-state
claim. -/
def tsG : TState :=
  { x := [(1, 2, 3)]
    v := [(0, 0, 1)]
    f := [(2, 0, 0)]
    box := ((1, 0, 0), (0, 1, 0), (0, 0, 1))
    flags := 3
    ddpCount := 1 }

/-! ## Basic lemmas about the range copy -/

theorem length_copyRange (src dst : List RVec) (a b : Nat) :
    (copyRange src dst a b).length = dst.length := by
  simp [copyRange]

theorem getElem_copyRange (src dst : List RVec) (a b i : Nat)
    (h : i < (copyRange src dst a b).length) :
    (copyRange src dst a b)[i] =
      if a ≤ i ∧ i < b then src.getD i zeroRVec else dst.getD i zeroRVec := by
  simp [copyRange]

theorem getD_copyRange (src dst : List RVec) (a b i : Nat) (h : i < dst.length) :
    (copyRange src dst a b).getD i zeroRVec =
      if a ≤ i ∧ i < b then src.getD i zeroRVec else dst.getD i zeroRVec := by
  have h' : i < (copyRange src dst a b).length := by
    rw [length_copyRange]; exact h
  rw [List.getD_eq_getElem _ _ h']
  exact getElem_copyRange src dst a b i h'

theorem range_map_getD (l : List RVec) :
    (List.range l.length).map (fun i => l.getD i zeroRVec) = l := by
  induction l with
  | nil => rfl
  | cons a t ih =>
    rw [List.length_cons, List.range_succ_eq_map, List.map_cons, List.map_map]
    simp only [Function.comp_def, List.getD_cons_zero, List.getD_cons_succ]
    rw [ih]

/-- Copying the full local range `[0, n)` with matching buffer sizes
replaces the destination by the source. -/
theorem copyRange_full (src dst : List RVec) (n : Nat)
    (hs : src.length = n) (hd : dst.length = n) :
    copyRange src dst 0 n = src := by
  subst hs
  unfold copyRange
  rw [hd]
  refine Eq.trans ?_ (range_map_getD src)
  refine List.map_congr_left ?_
  intro i hi
  rw [List.mem_range] at hi
  simp [hi]

/-- Two consecutive range copies from the same source fuse into one
(the key chunk-composition law). -/
theorem copyRange_trans (src dst : List RVec) (a b c : Nat)
    (hab : a ≤ b) (hbc : b ≤ c) :
    copyRange src (copyRange src dst a b) b c = copyRange src dst a c := by
  refine List.ext_getElem (by simp [length_copyRange]) ?_
  intro i h1 h2
  rw [getElem_copyRange, getElem_copyRange]
  have hi : i < dst.length := by
    simpa [length_copyRange] using h2
  rw [getD_copyRange src dst a b i hi]
  split_ifs <;> first | rfl | omega

/-! ## Field-preservation lemmas for the per-step phases -/

theorem stepReset_x (s : MicroState) : (stepReset s).x_ = s.x_ := by
  unfold stepReset; split <;> rfl

theorem stepReset_previousX (s : MicroState) :
    (stepReset s).previousX_ = s.previousX_ := by
  unfold stepReset; split <;> rfl

theorem stepReset_box (s : MicroState) : (stepReset s).box_ = s.box_ := by
  unfold stepReset; split <;> rfl

theorem stepReset_previousBox (s : MicroState) :
    (stepReset s).previousBox_ = s.previousBox_ := by
  unfold stepReset; split <;> rfl

theorem stepReset_localNAtoms (s : MicroState) :
    (stepReset s).localNAtoms_ = s.localNAtoms_ := by
  unfold stepReset; split <;> rfl

theorem stepReset_writeOutStep (s : MicroState) :
    (stepReset s).writeOutStep_ = s.writeOutStep_ := by
  unfold stepReset; split <;> rfl

theorem stepReset_backup (s : MicroState) :
    (stepReset s).localStateBackup_ = s.localStateBackup_ := by
  unfold stepReset; split <;> rfl

theorem stepBackup_x (step : Int) (s : MicroState) :
    (stepBackup step s).x_ = s.x_ := by
  unfold stepBackup; split <;> rfl

theorem stepBackup_previousX (step : Int) (s : MicroState) :
    (stepBackup step s).previousX_ = s.previousX_ := by
  unfold stepBackup; split <;> rfl

theorem stepBackup_box (step : Int) (s : MicroState) :
    (stepBackup step s).box_ = s.box_ := by
  unfold stepBackup; split <;> rfl

theorem stepBackup_previousBox (step : Int) (s : MicroState) :
    (stepBackup step s).previousBox_ = s.previousBox_ := by
  unfold stepBackup; split <;> rfl

theorem stepBackup_localNAtoms (step : Int) (s : MicroState) :
    (stepBackup step s).localNAtoms_ = s.localNAtoms_ := by
  unfold stepBackup; split <;> rfl

theorem stepBackup_v (step : Int) (s : MicroState) :
    (stepBackup step s).v_ = s.v_ := by
  unfold stepBackup; split <;> rfl

theorem stepBackup_vvReset (step : Int) (s : MicroState) :
    (stepBackup step s).vvResetVelocities_ = s.vvResetVelocities_ := by
  unfold stepBackup; split <;> rfl

/-- The rotation replaces `previousX_` by `x_` whenever the buffers have
the advertised size (spec §3 invariant: buffers sized to the local atom
count). -/
theorem copyPosition_previousX (s : MicroState)
    (hx : s.x_.length = s.localNAtoms_)
    (hp : s.previousX_.length = s.localNAtoms_) :
    (copyPosition s).previousX_ = s.x_ := by
  simpa [copyPosition] using copyRange_full s.x_ s.previousX_ s.localNAtoms_ hx hp

/-! ## Claim theorems -/

/-- C1: for every sequence of per-step rotation-callback invocations,
after the N-th invocation the previous-position buffer equals the
contents the position buffer had immediately before that invocation, and
the previous-box matrix equals the box matrix from before it. The state
`s` below is the (arbitrary) state immediately before the N-th
invocation, so the statement covers every sequence and every N ≥ 1; the
size hypotheses are the buffer-sizing invariant of the data model. -/
theorem microState_rotation_one_step_lag (step : Int) (s : MicroState)
    (hx : s.x_.length = s.localNAtoms_)
    (hp : s.previousX_.length = s.localNAtoms_) :
    (runStep step s).previousX_ = s.x_ ∧
    (runStep step s).previousBox_ = s.box_ := by
  unfold runStep
  constructor
  · rw [copyPosition_previousX]
    · rw [stepBackup_x, stepReset_x]
    · rw [stepBackup_x, stepReset_x, stepBackup_localNAtoms,
        stepReset_localNAtoms]; exact hx
    · rw [stepBackup_previousX, stepReset_previousX, stepBackup_localNAtoms,
        stepReset_localNAtoms]; exact hp
  · show (stepBackup step (stepReset s)).box_ = s.box_
    rw [stepBackup_box, stepReset_box]

/-- Witness for C1 at a concrete two-atom state. -/
theorem microState_rotation_one_step_lag_witness :
    (runStep 5 msLag).previousX_ = msLag.x_ ∧
    (runStep 5 msLag).previousBox_ = msLag.box_ :=
  microState_rotation_one_step_lag 5 msLag (by decide) (by decide)

/-- C2: when the per-step callback runs for the step that matches the
pending writeout step, it takes a deep-copy legacy-format backup of the
state before the in-place rotation (`stepReset s` is the full-step state
the callback sees before rotating), and the frame later written is
exactly that snapshot even after the live buffers have rotated forward
again and the position buffer has been overwritten. -/
theorem microState_backup_before_rotation (s : MicroState) (step : Int)
    (newx : List RVec) (h1 : step = s.writeOutStep_) :
    (runStep step s).localStateBackup_ = some (localState (stepReset s)) ∧
    (write step { copyPosition (runStep step s) with x_ := newx }).map
      Prod.fst = some (localState (stepReset s)) := by
  have hb : stepBackup step (stepReset s) = saveState (stepReset s) := by
    unfold stepBackup
    rw [stepReset_writeOutStep, ← h1]
    simp
  unfold runStep
  rw [hb]
  exact ⟨rfl, rfl⟩

/-- Witness for C2 at a concrete two-atom state with writeout step 3. -/
theorem microState_backup_before_rotation_witness :
    (runStep 3 msA).localStateBackup_ = some (localState (stepReset msA)) ∧
    (write 3 { copyPosition (runStep 3 msA) with
      x_ := [(9, 9, 9), (8, 8, 8)] }).map Prod.fst
      = some (localState (stepReset msA)) :=
  microState_backup_before_rotation msA 3 [(9, 9, 9), (8, 8, 8)] (by decide)

/-- C3: invoking the trajectory-writer callback while no backup snapshot
is held fails the fatal contract check (modelled as `none`): nothing is
written and no state is returned. Conversely, running the per-step
callback for the pending writeout step always leaves a backup in place,
so under the signaller/writer protocol a backup exists before the writer
fires for a scheduled step. -/
theorem microState_write_requires_backup :
    (∀ (step : Int) (s : MicroState),
      s.localStateBackup_ = none → write step s = none) ∧
    (∀ s : MicroState,
      ((runStep s.writeOutStep_ s).localStateBackup_).isSome = true) := by
  constructor
  · intro step s h
    simp [write, h]
  · intro s
    show ((stepBackup s.writeOutStep_ (stepReset s)).localStateBackup_).isSome
      = true
    unfold stepBackup
    rw [stepReset_writeOutStep]
    simp [saveState]

/-- Witness for C3: the writer fails on a concrete backup-free state,
and the callback for the pending writeout step produces a backup. -/
theorem microState_write_requires_backup_witness :
    write 7 msLag = none ∧
    ((runStep msA.writeOutStep_ msA).localStateBackup_).isSome = true :=
  ⟨microState_write_requires_backup.1 7 msLag (by decide),
   microState_write_requires_backup.2 msA⟩

/-- C4: the legacy bridge round-trips — `localState()` followed
immediately by `setLocalState()` on the same instance leaves the whole
`MicroState` (in particular positions, velocities, forces, box, flags,
and the partition counter) unchanged. -/
theorem microState_legacy_roundtrip (s : MicroState) :
    setLocalState (localState s) s = s := by
  cases s
  rfl

/-- If the reset flag is armed, the per-step callback restores the
velocity buffer from the Setup backup and disarms the flag. -/
theorem runStep_v_of_reset (step : Int) (t : MicroState)
    (h : t.vvResetVelocities_ = true) :
    (runStep step t).v_ = t.velocityBackup_ ∧
    (runStep step t).vvResetVelocities_ = false := by
  have h1 : stepReset t = { resetVelocities t with vvResetVelocities_ := false } := by
    simp [stepReset, h]
  constructor
  · show (stepBackup step (stepReset t)).v_ = _
    rw [stepBackup_v, h1]
    rfl
  · show (stepBackup step (stepReset t)).vvResetVelocities_ = false
    rw [stepBackup_vvReset, h1]

/-- If the reset flag is clear, the per-step callback leaves the
velocity buffer alone and the flag stays clear. -/
theorem runStep_v_of_noReset (step : Int) (t : MicroState)
    (h : t.vvResetVelocities_ = false) :
    (runStep step t).v_ = t.v_ ∧
    (runStep step t).vvResetVelocities_ = false := by
  have h1 : stepReset t = t := by
    simp [stepReset, h]
  constructor
  · show (stepBackup step (stepReset t)).v_ = _
    rw [stepBackup_v, h1]
  · show (stepBackup step (stepReset t)).vvResetVelocities_ = false
    rw [stepBackup_vvReset, h1, h]

/-- C5: with the velocity-reset flag armed, `elementSetup` captures the
pre-Setup velocities; the first per-step callback afterwards (run on a
buffer the half-step probe has overwritten with `vHalf`) restores the
velocity buffer to the pre-Setup contents and clears the flag; a second
callback invocation, run after an arbitrary intervening external
velocity update `v2`, leaves the buffer at `v2` (so the reset is not
re-applied); and in general every later invocation on any flag-cleared
state — which every state after the first invocation is, since the flag
stays clear — leaves the velocity buffer untouched and the flag clear. -/
theorem microState_velocity_reset_once (s : MicroState)
    (h : s.vvResetVelocities_ = true) (vHalf v2 : List RVec)
    (step1 step2 : Int) :
    (runStep step1 { elementSetup s with v_ := vHalf }).v_ = s.v_ ∧
    (runStep step1 { elementSetup s with v_ := vHalf }).vvResetVelocities_
      = false ∧
    (runStep step2 { runStep step1 { elementSetup s with v_ := vHalf } with
      v_ := v2 }).v_ = v2 ∧
    (∀ (later : Int) (t : MicroState), t.vvResetVelocities_ = false →
      (runStep later t).v_ = t.v_ ∧
      (runStep later t).vvResetVelocities_ = false) := by
  have e1 : ({ elementSetup s with v_ := vHalf } : MicroState).vvResetVelocities_
      = true := by
    simp [elementSetup, h]
  have e2 : ({ elementSetup s with v_ := vHalf } : MicroState).velocityBackup_
      = s.v_ := by
    simp [elementSetup, h]
  obtain ⟨a1, a2⟩ := runStep_v_of_reset step1 _ e1
  have a2' : ({ runStep step1 { elementSetup s with v_ := vHalf } with
      v_ := v2 } : MicroState).vvResetVelocities_ = false := a2
  exact ⟨a1.trans e2, a2, (runStep_v_of_noReset step2 _ a2').1,
    fun later t ht => runStep_v_of_noReset later t ht⟩

/-- Witness for C5 at a concrete one-atom velocity-Verlet state: the
first callback restores the pre-Setup velocities, and the second — run
after the velocities were externally overwritten with `(6, 7, 8)` —
leaves that overwrite in place instead of re-applying the reset. -/
theorem microState_velocity_reset_once_witness :
    (runStep 0 { elementSetup msV with v_ := [(5, 5, 5)] }).v_ = msV.v_ ∧
    (runStep 1 { runStep 0 { elementSetup msV with v_ := [(5, 5, 5)] } with
      v_ := [(6, 7, 8)] }).v_ = [(6, 7, 8)] :=
  ⟨(microState_velocity_reset_once msV (by decide) [(5, 5, 5)] [(6, 7, 8)]
      0 1).1,
   (microState_velocity_reset_once msV (by decide) [(5, 5, 5)] [(6, 7, 8)]
      0 1).2.2.1⟩

/-- C6 counterexample: the public interface does let a consumer write
the previous-position buffer directly — `writePreviousPosition()`
("Get write access to previous position vector", `microstate.h` line
125-126) hands out a mutable view, and storing through it changes
`previousX_` without any rotation, refuting "no operation available to
consumers of MicroState writes to them directly" at a concrete state. -/
theorem microState_previous_write_via_view_counterexample :
    (writePreviousPositionView [(0, 0, 0), (0, 0, 0)] msLag).previousX_
      ≠ msLag.previousX_ := by
  decide

/-- C6 (amended): none of the state-transforming operations MicroState
itself performs outside the rotation — Setup, velocity reset, backup
snapshot, legacy import, signaller update, the writer callback — writes
the previous-position or previous-box buffers; direct consumer writes
remain possible only through the `writePreviousPosition()` mutable-view
accessor. -/
theorem microState_previous_buffers_nonrotation_ops :
    (∀ s : MicroState, (elementSetup s).previousX_ = s.previousX_ ∧
      (elementSetup s).previousBox_ = s.previousBox_) ∧
    (∀ s : MicroState, (resetVelocities s).previousX_ = s.previousX_ ∧
      (resetVelocities s).previousBox_ = s.previousBox_) ∧
    (∀ s : MicroState, (saveState s).previousX_ = s.previousX_ ∧
      (saveState s).previousBox_ = s.previousBox_) ∧
    (∀ (st : TState) (s : MicroState),
      (setLocalState st s).previousX_ = s.previousX_ ∧
      (setLocalState st s).previousBox_ = s.previousBox_) ∧
    (∀ (step : Int) (s : MicroState),
      (signalStep step s).previousX_ = s.previousX_ ∧
      (signalStep step s).previousBox_ = s.previousBox_) ∧
    (∀ (step : Int) (s : MicroState),
      (stepBackup step s).previousX_ = s.previousX_ ∧
      (stepBackup step s).previousBox_ = s.previousBox_) ∧
    (∀ (step : Int) (s : MicroState),
      (write step s).elim True fun p =>
        p.2.previousX_ = s.previousX_ ∧ p.2.previousBox_ = s.previousBox_) := by
  refine ⟨fun s => ?_, fun s => ⟨rfl, rfl⟩, fun s => ⟨rfl, rfl⟩,
    fun st s => ⟨rfl, rfl⟩, fun step s => ?_, fun step s => ?_,
    fun step s => ?_⟩
  · unfold elementSetup
    split <;> exact ⟨rfl, rfl⟩
  · unfold signalStep
    split <;> exact ⟨rfl, rfl⟩
  · unfold stepBackup
    split <;> exact ⟨rfl, rfl⟩
  · unfold write
    cases s.localStateBackup_ with
    | none => trivial
    | some b => exact ⟨rfl, rfl⟩

/-- C7: the spec scenario — atom count 4, position cadence 10. No backup
exists after any of the step-0..9 callbacks; after step 10's callback a
backup exists and the writer succeeds at step 10; after the writer has
consumed the backup and step 11's callback has run, the writer at step
11 fails its contract check. -/
theorem microState_writeout_scenario :
    ((List.range 10).all fun k =>
      ((c7after (k + 1)).localStateBackup_).isNone) = true ∧
    ((c7after 11).localStateBackup_).isSome = true ∧
    (write 10 (c7after 11)).isSome = true ∧
    ((write 10 (c7after 11)).map fun p =>
      (write 11 (doStep 11 p.2)).isNone) = some true := by
  refine ⟨by decide, by decide, by decide, by decide⟩

/-- `copyPositionChunks` at the state level agrees with the buffer-level
chunk copy and leaves the position buffer alone. -/
theorem copyPositionChunks_spec (bounds : List (Nat × Nat)) (s : MicroState) :
    (copyPositionChunks bounds s).previousX_
      = copyChunksList s.x_ s.previousX_ bounds ∧
    (copyPositionChunks bounds s).x_ = s.x_ := by
  induction bounds generalizing s with
  | nil => exact ⟨rfl, rfl⟩
  | cons p rest ih =>
    obtain ⟨a, b⟩ := p
    exact ih (copyPositionRange a b s)

/-- Copying no indices changes nothing. -/
theorem copyRange_empty (src dst : List RVec) (a b : Nat) (h : b ≤ a) :
    copyRange src dst a b = dst := by
  unfold copyRange
  refine Eq.trans ?_ (range_map_getD dst)
  refine List.map_congr_left ?_
  intro i hi
  have hc : ¬(a ≤ i ∧ i < b) := by omega
  simp [hc]

/-- A contiguous chunking of `[start, start + sum sizes)` copies exactly
the range `[start, start + sum sizes)`. -/
theorem copyChunksList_chunkBounds (src dst : List RVec) (sizes : List Nat)
    (start : Nat) :
    copyChunksList src dst (chunkBounds start sizes)
      = copyRange src dst start (start + sizes.sum) := by
  induction sizes generalizing dst start with
  | nil =>
    show dst = copyRange src dst start (start + List.sum [])
    rw [List.sum_nil, Nat.add_zero, copyRange_empty src dst start start le_rfl]
  | cons sz rest ih =>
    show copyChunksList src (copyRange src dst start (start + sz))
      (chunkBounds (start + sz) rest) = _
    rw [ih, copyRange_trans src dst start (start + sz) (start + sz + rest.sum)
      (Nat.le_add_right start sz) (Nat.le_add_right _ _)]
    congr 1
    rw [List.sum_cons]
    omega

/-- C8: for every local atom count and every partition of the local atom
range into contiguous chunks (given by a list of chunk sizes summing to
the local atom count), performing the rotation chunk-by-chunk via the
range-bounded copy yields a previous-position buffer identical to the
single sequential rotation over the full range. -/
theorem microState_rotation_chunking (s : MicroState) (sizes : List Nat)
    (hsum : sizes.sum = s.localNAtoms_) :
    (copyPositionChunks (chunkBounds 0 sizes) s).previousX_
      = (copyPosition s).previousX_ := by
  rw [(copyPositionChunks_spec (chunkBounds 0 sizes) s).1,
    copyChunksList_chunkBounds s.x_ s.previousX_ sizes 0]
  show copyRange s.x_ s.previousX_ 0 (0 + sizes.sum)
    = copyRange s.x_ s.previousX_ 0 s.localNAtoms_
  rw [Nat.zero_add, hsum]

/-- Witness for C8: six atoms split into chunks of sizes 2, 3, 1. -/
theorem microState_rotation_chunking_witness :
    (copyPositionChunks (chunkBounds 0 [2, 3, 1]) msChunk).previousX_
      = (copyPosition msChunk).previousX_ :=
  microState_rotation_chunking msChunk [2, 3, 1] (by decide)

/-- C9: `globalState()` returns the stored full-system pointer itself
(no allocation, no ownership transfer); it is the supplied reference
when the instance was constructed on the master coordination role and
null on every non-master role, so callers must null-check. -/
theorem microState_globalState_master_only (natoms : Nat) (cr : CommRec)
    (arg : Option TState) (n1 n2 n3 n4 : Int) (isVV : Bool) (localN : Nat)
    (x0 v0 f0 : List RVec) (box0 : Matrix3) :
    (cr.isMasterRank = true →
      globalState (mkMicroState natoms cr arg n1 n2 n3 n4 isVV
        localN x0 v0 f0 box0) = arg) ∧
    (cr.isMasterRank = false →
      globalState (mkMicroState natoms cr arg n1 n2 n3 n4 isVV
        localN x0 v0 f0 box0) = none) ∧
    globalState (mkMicroState natoms cr arg n1 n2 n3 n4 isVV
      localN x0 v0 f0 box0)
      = (mkMicroState natoms cr arg n1 n2 n3 n4 isVV
        localN x0 v0 f0 box0).globalState_ := by
  refine ⟨fun h => ?_, fun h => ?_, rfl⟩
  · simp [globalState, mkMicroState, h]
  · simp [globalState, mkMicroState, h]

/-- Witness for C9: master role returns the supplied reference,
non-master returns null, at concrete construction arguments. -/
theorem microState_globalState_master_only_witness :
    globalState (mkMicroState 1 ⟨true⟩ (some tsG) 0 0 0 0 false
      0 [] [] [] ((0, 0, 0), (0, 0, 0), (0, 0, 0))) = some tsG ∧
    globalState (mkMicroState 1 ⟨false⟩ (some tsG) 0 0 0 0 false
      0 [] [] [] ((0, 0, 0), (0, 0, 0), (0, 0, 0))) = none :=
  ⟨(microState_globalState_master_only 1 ⟨true⟩ (some tsG) 0 0 0 0 false
      0 [] [] [] ((0, 0, 0), (0, 0, 0), (0, 0, 0))).1 rfl,
   (microState_globalState_master_only 1 ⟨false⟩ (some tsG) 0 0 0 0 false
      0 [] [] [] ((0, 0, 0), (0, 0, 0), (0, 0, 0))).2.1 rfl⟩

/-- C10: in a build without CUDA support, the `applySettleCuda` test
shim records exactly one non-fatal test-assertion failure and returns
with every output buffer — `h_xp`, `h_v`, `virialScaled` — unchanged,
for all inputs. -/
theorem applySettleCuda_stub_frame (numAtoms : Nat) (h_x : List RVec)
    (updateVelocities : Bool) (invdt : Int) (computeVirial : Bool)
    (pbc mtop idef mdatoms : Unit) (bufs : SettleBuffers)
    (ctx : TestContext) :
    (applySettleCuda numAtoms h_x updateVelocities invdt computeVirial
      pbc mtop idef mdatoms bufs ctx).1 = bufs ∧
    (applySettleCuda numAtoms h_x updateVelocities invdt computeVirial
      pbc mtop idef mdatoms bufs ctx).1.h_xp = bufs.h_xp ∧
    (applySettleCuda numAtoms h_x updateVelocities invdt computeVirial
      pbc mtop idef mdatoms bufs ctx).1.h_v = bufs.h_v ∧
    (applySettleCuda numAtoms h_x updateVelocities invdt computeVirial
      pbc mtop idef mdatoms bufs ctx).1.virialScaled = bufs.virialScaled ∧
    (applySettleCuda numAtoms h_x updateVelocities invdt computeVirial
      pbc mtop idef mdatoms bufs ctx).2.failures = ctx.failures + 1 :=
  ⟨rfl, rfl, rfl, rfl, rfl⟩

end Gromacs
